import Mathlib

/-!
Shallow embedding of the DDL-conversion pipeline of `src/app.py`
(repository `Redshift-LLM-Code-conversion`).

Modelling conventions:
* Python strings are modelled as `List Char` (`PyStr`); `str.strip` is
  `stripL`, `str.upper` is `upperL`, the `in` substring test is `hasSub`,
  `str.startswith`/`str.endswith` are `List.isPrefixOf`/`List.isSuffixOf`.
  (Lean's `Char.isWhitespace` and `Char.toUpper` are ASCII-faithful, which
  covers every string the program manipulates.)
* JSON bodies decoded by `response.json()` are modelled by the inductive
  `JsonVal`; JSON numbers are modelled as integers.  Python `str(...)` of a
  decoded value is `pyStrTop` (strings print as themselves, containers print
  with Python `repr` conventions).
* The Streamlit UI calls (`st.error`, `st.info`, ...) are side-effect-free
  message emissions; where a claim talks about reporting they are modelled
  as a list of emitted message strings, otherwise they are dropped.
* The network call `requests.post` is modelled by a `TransportOutcome`
  argument: either a response with a status code, raw text and decoded JSON
  body, or a raised network/timeout error.  The batch loop invokes
  `ai_query(create_conversion_prompt(content))`; since the only thing the
  loop observes is the returned optional string, the composition is
  abstracted as an oracle `PyStr → Option PyStr` from stored content to
  inference result, universally quantified in the theorems.
-/

abbrev PyStr := List Char

def pystr (s : String) : PyStr := s.data

/-- Whitespace test used by Python `str.strip`. -/
def isWs (c : Char) : Bool := c.isWhitespace

def dropLeadWs (l : PyStr) : PyStr := l.dropWhile isWs

def dropTrailWs (l : PyStr) : PyStr := (l.reverse.dropWhile isWs).reverse

/-- Python `str.strip()`. -/
def stripL (l : PyStr) : PyStr := dropTrailWs (dropLeadWs l)

/-- Python `str.upper()`. -/
def upperL (l : PyStr) : PyStr := l.map Char.toUpper

/-- Python substring test `needle in hay`. -/
def hasSub (hay needle : PyStr) : Bool :=
  match hay with
  | [] => needle.isEmpty
  | c :: t => needle.isPrefixOf (c :: t) || hasSub t needle

/-- Decoded JSON values as produced by `response.json()` in `ai_query`
(`src/app.py:102`).  Numbers are modelled as integers. -/
inductive JsonVal where
  | jstr (s : PyStr)
  | jnum (n : Int)
  | jbool (b : Bool)
  | jnull
  | jarr (xs : List JsonVal)
  | jobj (kvs : List (PyStr × JsonVal))

/-- Python dict key lookup (`d.get(k)` / `d[k]`); JSON objects have unique
string keys, so first match is the lookup. -/
def lookupKey (kvs : List (PyStr × JsonVal)) (k : PyStr) : Option JsonVal :=
  match kvs.find? (fun p => p.1 == k) with
  | some p => some p.2
  | none => none

/-- Python truthiness of a decoded JSON value. -/
def truthy : JsonVal → Bool
  | .jstr s => !s.isEmpty
  | .jnum n => n != 0
  | .jbool b => b
  | .jnull => false
  | .jarr xs => !xs.isEmpty
  | .jobj kvs => !kvs.isEmpty

/-- Escape a character for Python string `repr` with quote character `q`. -/
def escPyChar (q : Char) (c : Char) : PyStr :=
  if c = '\\' then ['\\', '\\']
  else if c = q then ['\\', q]
  else if c = '\n' then ['\\', 'n']
  else if c = '\r' then ['\\', 'r']
  else if c = '\t' then ['\\', 't']
  else [c]

/-- Python `repr` of a string: single-quoted, unless the string holds a
single quote but no double quote. -/
def reprPyStr (l : PyStr) : PyStr :=
  if l.contains '\'' && !(l.contains '"') then
    '"' :: (l.flatMap (escPyChar '"') ++ ['"'])
  else
    '\'' :: (l.flatMap (escPyChar '\'') ++ ['\''])

mutual

/-- Python `repr` of a decoded JSON value (what `str` prints inside
containers): `True`/`False`/`None`, decimal integers, quoted strings,
`[...]` lists and `\x7b...\x7d` dicts. -/
def pyRepr : JsonVal → PyStr
  | .jstr s => reprPyStr s
  | .jnum n => (Int.repr n).data
  | .jbool b => if b then pystr "True" else pystr "False"
  | .jnull => pystr "None"
  | .jarr xs => '[' :: (pyReprList xs ++ [']'])
  | .jobj kvs => '\x7b' :: (pyReprObj kvs ++ ['\x7d'])

def pyReprList : List JsonVal → PyStr
  | [] => []
  | [x] => pyRepr x
  | x :: y :: xs => pyRepr x ++ pystr ", " ++ pyReprList (y :: xs)

def pyReprObj : List (PyStr × JsonVal) → PyStr
  | [] => []
  | [kv] => reprPyStr kv.1 ++ pystr ": " ++ pyRepr kv.2
  | kv :: kv2 :: xs => reprPyStr kv.1 ++ pystr ": " ++ pyRepr kv.2 ++ pystr ", " ++ pyReprObj (kv2 :: xs)

end

/-- Python `str(...)` of a decoded JSON value: a string prints as itself,
anything else prints as its `repr`. -/
def pyStrTop : JsonVal → PyStr
  | .jstr s => s
  | v => pyRepr v

/-- `k in d and d[k]` (key present with truthy value). -/
def hasTruthyKey (kvs : List (PyStr × JsonVal)) (k : PyStr) : Bool :=
  match lookupKey kvs k with
  | some v => truthy v
  | none => false

/-- `k in d` (key present). -/
def hasKey (kvs : List (PyStr × JsonVal)) (k : PyStr) : Bool :=
  (lookupKey kvs k).isSome

/-- Python `v[0]`, with `Except.error` for the cases where CPython raises
(`IndexError` on an empty list or string, `KeyError`/`TypeError` on dicts
and scalars).  Indexing a non-empty string yields its one-character head. -/
def pyIndex0 : JsonVal → Except Unit JsonVal
  | .jarr (x :: _) => .ok x
  | .jstr (c :: _) => .ok (.jstr [c])
  | _ => .error ()

/-- One segment of a list-shaped `choices[0].message.content`
(`src/app.py:115`-`121`): a string stays, a dict yields
`seg.get("text") or seg.get("content") or ""`, anything else is
stringified. -/
def segPart : JsonVal → JsonVal
  | .jstr s => .jstr s
  | .jobj o =>
      let a := (lookupKey o (pystr "text")).getD .jnull
      if truthy a then a
      else
        let b := (lookupKey o (pystr "content")).getD .jnull
        if truthy b then b else .jstr []
  | v => .jstr (pyStrTop v)

/-- Python `"".join(parts)`: raises (`Except.error`) if any part is not a
string. -/
def joinStrParts : List JsonVal → Except Unit PyStr
  | [] => .ok []
  | .jstr s :: rest => (joinStrParts rest).map (fun r => s ++ r)
  | _ :: _ => .error ()

/-- The `choices[0]` branch of the normalization in `ai_query`
(`src/app.py:108`-`128`). -/
def choicesBranch (cv : JsonVal) : Except Unit JsonVal :=
  match pyIndex0 cv with
  | .error e => .error e
  | .ok fc =>
    match fc with
    | .jobj fo =>
      match lookupKey fo (pystr "message") with
      | some (.jobj mo) =>
        let raw := (lookupKey mo (pystr "content")).getD (.jstr [])
        match raw with
        | .jarr segs => (joinStrParts (segs.map segPart)).map (fun s => JsonVal.jstr s)
        | _ => .ok (if truthy raw then raw else .jstr [])
      | _ =>
        if hasKey fo (pystr "text") then .ok ((lookupKey fo (pystr "text")).getD (.jstr []))
        else .ok (.jstr (pyStrTop fc))
    | _ => .ok (.jstr [])

/-- The `predictions[0]` branch (`src/app.py:133`-`138`). -/
def predictionsBranch (pv : JsonVal) : Except Unit JsonVal :=
  match pyIndex0 pv with
  | .error e => .error e
  | .ok pred =>
    match pred with
    | .jobj po =>
      let a := (lookupKey po (pystr "text")).getD .jnull
      if truthy a then .ok a
      else
        let b := (lookupKey po (pystr "output")).getD .jnull
        if truthy b then .ok b else .ok (.jstr (pyStrTop pred))
    | _ => .ok (.jstr (pyStrTop pred))

/-- The `try:` block normalizing the response body (`src/app.py:106`-`140`):
the elif cascade over the possible response shapes.  `Except.error` marks
the positions where CPython would raise inside the block. -/
def normalizeCore (result : JsonVal) : Except Unit JsonVal :=
  match result with
  | .jobj kvs =>
    if hasTruthyKey kvs (pystr "choices") then
      choicesBranch ((lookupKey kvs (pystr "choices")).getD .jnull)
    else if hasKey kvs (pystr "text") then
      .ok ((lookupKey kvs (pystr "text")).getD (.jstr []))
    else if hasKey kvs (pystr "response") then
      .ok ((lookupKey kvs (pystr "response")).getD (.jstr []))
    else if hasTruthyKey kvs (pystr "predictions") then
      predictionsBranch ((lookupKey kvs (pystr "predictions")).getD .jnull)
    else .ok (.jstr (pyStrTop result))
  | v => .ok (.jstr (pyStrTop v))

/-- Normalization with the `except` fallback (`src/app.py:141`-`147`): a
raise inside the block is recovered as `str(result)`, and a non-string
normalized value is stringified (`if not isinstance(content, str)`). -/
def normalizeContent (result : JsonVal) : PyStr :=
  match normalizeCore result with
  | .ok (.jstr s) => s
  | .ok v => pyStrTop v
  | .error _ => pyStrTop result

/-- Code-fence cleanup of the normalized response (`src/app.py:149`-`157`):
strip, remove a leading ```` ```sql ```` then a leading ```` ``` ````, remove
a trailing ```` ``` ````, re-strip. -/
def cleanFences (content : PyStr) : PyStr :=
  let c1 := stripL content
  let c2 := if (pystr "```sql").isPrefixOf c1 then c1.drop 6 else c1
  let c3 := if (pystr "```").isPrefixOf c2 then c2.drop 3 else c2
  let c4 := if (pystr "```").isSuffixOf c3 then c3.take (c3.length - 3) else c3
  stripL c4

/-- Outcome of the single `requests.post` in `ai_query` (`src/app.py:99`):
either an HTTP response (status code, raw text, decoded JSON body) or a
raised network/timeout error. -/
inductive TransportOutcome where
  | response (status : Nat) (text : PyStr) (body : JsonVal)
  | netError (msg : PyStr)

/-- Result of one `ai_query` call: the returned value (`none` models Python
`None`), the number of HTTP POSTs performed, and the `st.error`/`st.info`
messages emitted. -/
structure AiCall where
  result : Option PyStr
  posts : Nat
  msgs : List PyStr

/-- Truthiness of `st.session_state.get('databricks_token')`
(`src/app.py:76`-`78`): absent or empty is falsy. -/
def tokenTruthy : Option PyStr → Bool
  | none => false
  | some s => !s.isEmpty

/-- `ai_query` (`src/app.py:72`-`167`), with the prompt and endpoint URL
irrelevant to the observable result elided: missing/empty token returns
`None` with no POST; a network error returns `None`; a 200 response returns
the normalized, fence-cleaned content; any other status returns `None`. -/
def ai_query (token : Option PyStr) (outcome : TransportOutcome) : AiCall :=
  if tokenTruthy token then
    match outcome with
    | .netError m => ⟨none, 1, [pystr "Error calling AI endpoint: " ++ m]⟩
    | .response status text body =>
      if status = 200 then
        ⟨some (cleanFences (normalizeContent body)), 1, []⟩
      else
        ⟨none, 1, [pystr "AI API Error: " ++ (Nat.repr status).data,
                   pystr "Response text: " ++ text]⟩
  else
    ⟨none, 0, [pystr "❌ No access token provided",
               pystr "💡 Please enter your Databricks access token in the sidebar"]⟩

/-- The ordered list of change phrases built by `analyze_conversion_changes`
(`src/app.py:463`-`535`): each sequential `changes.append` is one
conditional singleton, in source order. -/
def changesList (original_sql converted_sql : PyStr) : List PyStr :=
  let ou := upperL original_sql
  let cu := upperL converted_sql
  (if hasSub ou (pystr "VARCHAR") && hasSub cu (pystr "STRING") then
     [pystr "VARCHAR → STRING"]
   else if hasSub ou (pystr "VARCHAR") && hasSub cu (pystr "VARCHAR") then
     [pystr "Preserved VARCHAR types"]
   else [])
  ++ (if hasSub ou (pystr "CHAR(") && hasSub cu (pystr "VARCHAR") then
        [pystr "CHAR → VARCHAR"] else [])
  ++ (if hasSub ou (pystr "TEXT") && (hasSub cu (pystr "VARCHAR") || hasSub cu (pystr "STRING")) then
        [pystr "TEXT → VARCHAR/STRING"] else [])
  ++ (if hasSub ou (pystr "IDENTITY(") && hasSub cu (pystr "GENERATED ALWAYS AS IDENTITY") then
        [pystr "IDENTITY → GENERATED ALWAYS AS IDENTITY"]
      else if hasSub ou (pystr "IDENTITY(") then
        [pystr "Converted IDENTITY columns"]
      else [])
  ++ (if hasSub ou (pystr "DEFAULT") && hasSub cu (pystr "DEFAULT") then
        [pystr "Preserved DEFAULT values in CREATE TABLE"] else [])
  ++ (if hasSub ou (pystr "GETDATE()") && hasSub cu (pystr "CURRENT_TIMESTAMP()") then
        [pystr "getdate() → CURRENT_TIMESTAMP()"] else [])
  ++ (if hasSub ou (pystr "GETUTCDATE()") && hasSub cu (pystr "CURRENT_TIMESTAMP()") then
        [pystr "getutcdate() → CURRENT_TIMESTAMP()"] else [])
  ++ (if hasSub ou (pystr "SYSDATE") && hasSub cu (pystr "CURRENT_TIMESTAMP()") then
        [pystr "SYSDATE → CURRENT_TIMESTAMP()"] else [])
  ++ (if hasSub ou (pystr "PRIMARY KEY") && hasSub cu (pystr "PRIMARY KEY") then
        [pystr "Preserved PRIMARY KEY"] else [])
  ++ (if hasSub ou (pystr "FOREIGN KEY") && !hasSub cu (pystr "FOREIGN KEY") then
        [pystr "Removed FOREIGN KEY (not supported)"] else [])
  ++ (if hasSub ou (pystr "UNIQUE") && !hasSub cu (pystr "UNIQUE") then
        [pystr "Removed UNIQUE constraints (not supported)"] else [])
  ++ (if hasSub ou (pystr "CHECK(") && !hasSub cu (pystr "CHECK(") then
        [pystr "Removed CHECK constraints (not supported)"] else [])
  ++ (if hasSub ou (pystr "DISTKEY") then
        [pystr "Removed DISTKEY (Redshift-specific)"] else [])
  ++ (if hasSub ou (pystr "SORTKEY") then
        [pystr "Removed SORTKEY (Redshift-specific)"] else [])
  ++ (if hasSub ou (pystr "DISTSTYLE") then
        [pystr "Removed DISTSTYLE (Redshift-specific)"] else [])
  ++ (if hasSub ou (pystr "CLUSTERED") || hasSub ou (pystr "NONCLUSTERED") then
        [pystr "Removed CLUSTERED/NONCLUSTERED (SQL Server-specific)"] else [])
  ++ (if hasSub cu (pystr "USING DELTA") then
        [pystr "Added USING DELTA"] else [])
  ++ (if hasSub cu (pystr "TBLPROPERTIES") then
        (if hasSub (cu.filter (fun c => c != ' ')) (pystr "IDENTITYCOLUMNS") then
           [pystr "Added IDENTITY columns support"] else [])
        ++ (if hasSub (cu.filter (fun c => c != ' ')) (pystr "ALLOWCOLUMNDEFAULTS") then
              [pystr "Added column defaults support"] else [])
      else [])

/-- The change list with the generic fallback (`src/app.py:538`-`539`). -/
def reportedChanges (original_sql converted_sql : PyStr) : List PyStr :=
  let l := changesList original_sql converted_sql
  if l.isEmpty then [pystr "Converted to Databricks SQL format"] else l

/-- `analyze_conversion_changes` (`src/app.py:463`-`541`): the semicolon-join
of the reported change phrases. -/
def analyze_conversion_changes (original_sql converted_sql : PyStr) : PyStr :=
  List.intercalate (pystr "; ") (reportedChanges original_sql converted_sql)

/-- Per-record status, the spec's state machine (§3/§4.4) mapped onto the
branches of the conversion loop (`src/app.py:725`-`755`): the success branch
at line 738, the failure branch at line 749, the no-content branch at
line 753. -/
inductive RecStatus where
  | Pending
  | Converted
  | Failed
  | Skipped
deriving DecidableEq

/-- A loaded row before conversion: the `Filename` and `Content` columns. -/
structure RecIn where
  filename : PyStr
  content : PyStr

/-- A row after the conversion loop: the four dataframe columns plus the
derived status. -/
structure RecOut where
  filename : PyStr
  content : PyStr
  converted : PyStr
  comments : PyStr
  status : RecStatus

/-- Sentinel stored in `Content` when reading the file failed
(`src/app.py:665`). -/
def readErrSentinel : PyStr := pystr "❌ Error reading file"

/-- Sentinel stored in `Converted DBSQL Code` when inference failed
(`src/app.py:749`). -/
def failSentinel : PyStr := pystr "❌ Conversion failed"

/-- Sentinel stored in `Converted DBSQL Code` for records with no usable
content (`src/app.py:754`). -/
def noContentSentinel : PyStr := pystr "❌ No content to convert"

/-- Result of processing one record: the updated row, the number of
inference calls made for it, and the `converted_count` increment. -/
structure StepOut where
  record : RecOut
  calls : Nat
  inc : Nat

/-- One iteration of the conversion loop (`src/app.py:725`-`755`).  `ai`
abstracts `ai_query(create_conversion_prompt(content))` as an oracle from
stored content to the optional returned string (see the header comment). -/
def processRecord (ai : PyStr → Option PyStr) (r : RecIn) : StepOut :=
  if r.content ≠ [] ∧ r.content ≠ readErrSentinel then
    match ai r.content with
    | some code =>
      if code ≠ [] ∧ stripL code ≠ [] then
        ⟨⟨r.filename, r.content, code, analyze_conversion_changes r.content code, .Converted⟩, 1, 1⟩
      else
        ⟨⟨r.filename, r.content, failSentinel, pystr "AI conversion failed", .Failed⟩, 1, 0⟩
    | none =>
      ⟨⟨r.filename, r.content, failSentinel, pystr "AI conversion failed", .Failed⟩, 1, 0⟩
  else
    ⟨⟨r.filename, r.content, noContentSentinel, pystr "No content available", .Skipped⟩, 0, 0⟩

/-- Aggregate result of one batch run: updated rows in input order, the
`converted_count` reported at the end, the total number of inference
calls. -/
structure BatchOut where
  recs : List RecOut
  convCount : Nat
  calls : Nat

/-- The whole conversion loop over the loaded rows, strictly sequential and
in input order (`src/app.py:725`-`761`). -/
def runBatch (ai : PyStr → Option PyStr) : List RecIn → BatchOut
  | [] => ⟨[], 0, 0⟩
  | r :: rs =>
    let s := processRecord ai r
    let b := runBatch ai rs
    ⟨s.record :: b.recs, s.inc + b.convCount, s.calls + b.calls⟩

/-- A dataframe row as seen by the packager: the `Filename` column and the
`Converted DBSQL Code` cell, `none` modelling a missing value (`NaN`), for
which `pd.notna` is false. -/
structure ZipRow where
  filename : PyStr
  converted : Option PyStr

/-- `original_filename.rsplit('.', 1)[0]` (`src/app.py:915`): everything
before the last dot, or the whole name if there is no dot. -/
def baseName (f : PyStr) : PyStr :=
  match f.reverse.dropWhile (fun c => c != '.') with
  | [] => f
  | _ :: rest => rest.reverse

def zipSuffix : PyStr := pystr "_converteddbsqlcode.sql"

/-- `create_download_zip` (`src/app.py:906`-`922`): one archive entry
(name, content) per row whose converted cell is not missing (`pd.notna`),
in row order. -/
def create_download_zip : List ZipRow → List (PyStr × PyStr)
  | [] => []
  | r :: rs =>
    match r.converted with
    | some c => (baseName r.filename ++ zipSuffix, c) :: create_download_zip rs
    | none => create_download_zip rs


/-! ### Theorems -/

/-- Original DDL of the worked example in the spec (§8). -/
def exampleOriginal : PyStr :=
  pystr "CREATE TABLE t (id BIGINT IDENTITY(1,1), d TIMESTAMP DEFAULT getdate())"

/-- Single-quote character, used to build SQL literals without embedding
quotes in Lean string literals. -/
def sqChar : Char := '\''

/-- Converted DDL of the worked example in the spec (§8), with the quoted
table property spelled out character by character. -/
def exampleConverted : PyStr :=
  pystr "CREATE TABLE t (id BIGINT GENERATED ALWAYS AS IDENTITY (START WITH 1 INCREMENT BY 1), d TIMESTAMP NOT NULL DEFAULT CURRENT_TIMESTAMP()) USING DELTA TBLPROPERTIES ("
    ++ [sqChar] ++ pystr "delta.feature.identityColumns" ++ [sqChar, '='] ++ [sqChar]
    ++ pystr "supported" ++ [sqChar, ')']

set_option maxRecDepth 200000 in
/-- Claim C7: on the documented example pair, the summary produced by
`analyze_conversion_changes` contains the four phrases
"IDENTITY → GENERATED ALWAYS AS IDENTITY", "getdate() → CURRENT_TIMESTAMP()",
"Added USING DELTA" and "Added IDENTITY columns support". -/
theorem analyze_example_contains_four_phrases :
    hasSub (analyze_conversion_changes exampleOriginal exampleConverted)
      (pystr "IDENTITY → GENERATED ALWAYS AS IDENTITY") = true
    ∧ hasSub (analyze_conversion_changes exampleOriginal exampleConverted)
        (pystr "getdate() → CURRENT_TIMESTAMP()") = true
    ∧ hasSub (analyze_conversion_changes exampleOriginal exampleConverted)
        (pystr "Added USING DELTA") = true
    ∧ hasSub (analyze_conversion_changes exampleOriginal exampleConverted)
        (pystr "Added IDENTITY columns support") = true := by
  decide

/-- Claim C9: with no bearer credential in the session, `ai_query` reports
the missing-credential failure, returns failure, and performs no HTTP POST,
whatever the transport would have answered. -/
theorem ai_query_missing_token (outcome : TransportOutcome) :
    ai_query none outcome =
      ⟨none, 0, [pystr "❌ No access token provided",
                 pystr "💡 Please enter your Databricks access token in the sidebar"]⟩ := rfl

/-- Claim C8: `ai_query` is a total function into an optional result (the
embedding of "never raises"), and a raise inside the shape-normalization
block is recovered locally as the stringified whole body. -/
theorem ai_query_never_raises :
    (∀ (token : Option PyStr) (outcome : TransportOutcome),
       (ai_query token outcome).result = none ∨ ∃ s, (ai_query token outcome).result = some s)
    ∧ (∀ body : JsonVal, normalizeCore body = .error () → normalizeContent body = pyStrTop body) := by
  constructor
  · intro token outcome
    cases h : (ai_query token outcome).result with
    | none => exact Or.inl rfl
    | some s => exact Or.inr ⟨s, rfl⟩
  · intro body h
    unfold normalizeContent
    rw [h]

/-- Witness for C8: the body whose `choices` value is the number `5` makes
the normalization block raise (CPython `TypeError` on `5[0]`), and the
client falls back to the stringified body. -/
theorem ai_query_never_raises_witness :
    normalizeContent (.jobj [(pystr "choices", .jnum 5)])
      = pyStrTop (.jobj [(pystr "choices", .jnum 5)]) :=
  ai_query_never_raises.2 (.jobj [(pystr "choices", .jnum 5)]) rfl

/-- Failure precondition of `ai_query`: missing/empty credential, raised
network error, or a status other than 200. -/
def failureInput (token : Option PyStr) (outcome : TransportOutcome) : Prop :=
  tokenTruthy token = false ∨
    match outcome with
    | .netError _ => True
    | .response st _ _ => st ≠ 200

/-- Claim C5 (amended): `ai_query` returns failure exactly when the
credential is missing, the network call raises, or the HTTP status is not
exactly 200; on a 200 response with a credential it returns the normalized,
fence-cleaned content; it performs at most one HTTP POST (none when the
credential is missing), with no retry. -/
theorem ai_query_failure_conditions (token : Option PyStr) (outcome : TransportOutcome) :
    ((ai_query token outcome).result = none ↔ failureInput token outcome)
    ∧ (∀ st text body, outcome = .response st text body → st = 200 → tokenTruthy token = true →
        (ai_query token outcome).result = some (cleanFences (normalizeContent body)))
    ∧ (ai_query token outcome).posts ≤ 1
    ∧ (tokenTruthy token = false → (ai_query token outcome).posts = 0)
    ∧ (tokenTruthy token = true → (ai_query token outcome).posts = 1) := by
  cases htok : tokenTruthy token with
  | false =>
    cases outcome with
    | netError m => simp [ai_query, htok, failureInput]
    | response st text body => simp [ai_query, htok, failureInput]
  | true =>
    cases outcome with
    | netError m => simp [ai_query, htok, failureInput]
    | response st text body =>
      by_cases hst : st = 200
      · subst hst; simp [ai_query, htok, failureInput]
      · simp [ai_query, htok, failureInput, hst]

/-- Witness for C5: a 200 response with a set token yields the cleaned
normalized body content. -/
theorem ai_query_failure_conditions_witness :
    (ai_query (some (pystr "tok"))
        (.response 200 [] (.jobj [(pystr "text", .jstr (pystr "SELECT 1"))]))).result
      = some (cleanFences (normalizeContent (.jobj [(pystr "text", .jstr (pystr "SELECT 1"))]))) :=
  (ai_query_failure_conditions (some (pystr "tok"))
      (.response 200 [] (.jobj [(pystr "text", .jstr (pystr "SELECT 1"))]))).2.1
    200 [] (.jobj [(pystr "text", .jstr (pystr "SELECT 1"))]) rfl rfl rfl

/-- Counterexample to C5 as stated: HTTP status 201 is a 2xx status, yet
`ai_query` returns failure instead of proceeding to normalization, because
the code tests `status_code == 200` (`src/app.py:101`). -/
theorem ai_query_2xx_counterexample :
    (200 ≤ 201 ∧ 201 < 300)
    ∧ (ai_query (some (pystr "tok")) (.response 201 [] (.jobj []))).result = none := by
  exact ⟨⟨by decide, by decide⟩, rfl⟩

/-- Claim C1 (amended), part of the development: characterization of the
packager output.  `create_download_zip` emits one entry per row whose
converted cell is present (`pd.notna`), named
`<base>_converteddbsqlcode.sql` with the cell content verbatim — including
rows whose cell is the empty string or a failure sentinel. -/
theorem create_download_zip_characterization (rows : List ZipRow) :
    (create_download_zip rows).length = rows.countP (fun r => r.converted.isSome)
    ∧ (∀ n c, (n, c) ∈ create_download_zip rows ↔
        ∃ r, r ∈ rows ∧ r.converted = some c ∧ n = baseName r.filename ++ zipSuffix) := by
  induction rows with
  | nil =>
    refine ⟨rfl, ?_⟩
    intro n c
    simp [create_download_zip]
  | cons r rs ih =>
    cases hr : r.converted with
    | none =>
      refine ⟨?_, ?_⟩
      · simpa [create_download_zip, hr, List.countP_cons] using ih.1
      · intro n c
        have hz : create_download_zip (r :: rs) = create_download_zip rs := by
          simp [create_download_zip, hr]
        rw [hz, ih.2 n c]
        constructor
        · rintro ⟨r', hm, hc, hn⟩
          exact ⟨r', List.mem_cons_of_mem _ hm, hc, hn⟩
        · rintro ⟨r', hm, hc, hn⟩
          rcases List.mem_cons.mp hm with h | h
          · subst h; rw [hr] at hc; cases hc
          · exact ⟨r', h, hc, hn⟩
    | some c0 =>
      refine ⟨?_, ?_⟩
      · simpa [create_download_zip, hr, List.countP_cons] using ih.1
      · intro n c
        have hz : create_download_zip (r :: rs)
            = (baseName r.filename ++ zipSuffix, c0) :: create_download_zip rs := by
          simp [create_download_zip, hr]
        rw [hz]
        constructor
        · intro hm
          rcases List.mem_cons.mp hm with h | h
          · have hn : n = baseName r.filename ++ zipSuffix := congrArg Prod.fst h
            have hc : c = c0 := congrArg Prod.snd h
            exact ⟨r, List.mem_cons_self r rs, by rw [hr, hc], hn⟩
          · obtain ⟨r', hm', hc', hn'⟩ := (ih.2 n c).mp h
            exact ⟨r', List.mem_cons_of_mem _ hm', hc', hn'⟩
        · rintro ⟨r', hm', hc', hn'⟩
          rcases List.mem_cons.mp hm' with h | h
          · subst h
            rw [hr] at hc'
            have hcc : c0 = c := by injection hc'
            subst hcc
            rw [hn']
            exact List.mem_cons_self _ _
          · exact List.mem_cons_of_mem _ ((ih.2 n c).mpr ⟨r', h, hc', hn'⟩)

set_option maxRecDepth 10000 in
/-- Counterexample to C1 as stated: with two rows holding converted content
and one row holding the empty string, the archive has three entries, not
two — `create_download_zip` only tests `pd.notna`, never emptiness or
sentinels (`src/app.py:912`). -/
theorem create_download_zip_counterexample :
    ((([⟨pystr "a.sql", some (pystr "SELECT 1")⟩,
        ⟨pystr "b.sql", some (pystr "SELECT 2")⟩,
        ⟨pystr "c.sql", some []⟩] : List ZipRow).countP
          (fun r => match r.converted with | some c => !c.isEmpty | none => false)) = 2)
    ∧ (create_download_zip
        [⟨pystr "a.sql", some (pystr "SELECT 1")⟩,
         ⟨pystr "b.sql", some (pystr "SELECT 2")⟩,
         ⟨pystr "c.sql", some []⟩]).length = 3
    ∧ (create_download_zip
        [⟨pystr "a.sql", some (pystr "SELECT 1")⟩,
         ⟨pystr "b.sql", some (pystr "SELECT 2")⟩,
         ⟨pystr "c.sql", some []⟩]).length ≠ 2 := by
  exact ⟨by decide, by decide, by decide⟩

/-- Case analysis of one iteration of the conversion loop
(`src/app.py:725`-`755`): a record either converts with the non-blank
oracle output, fails with the failure sentinel, or is skipped with the
no-content sentinel. -/
theorem processRecord_branches (ai : PyStr → Option PyStr) (r : RecIn) :
    (∃ code, ai r.content = some code ∧ code ≠ [] ∧ stripL code ≠ [] ∧
       processRecord ai r =
         ⟨⟨r.filename, r.content, code, analyze_conversion_changes r.content code, .Converted⟩, 1, 1⟩)
    ∨ (processRecord ai r =
         ⟨⟨r.filename, r.content, failSentinel, pystr "AI conversion failed", .Failed⟩, 1, 0⟩)
    ∨ ((r.content = [] ∨ r.content = readErrSentinel) ∧ processRecord ai r =
         ⟨⟨r.filename, r.content, noContentSentinel, pystr "No content available", .Skipped⟩, 0, 0⟩) := by
  unfold processRecord
  split
  · next h =>
    split
    · next code heq =>
      split
      · next hc => exact Or.inl ⟨code, heq, hc.1, hc.2, rfl⟩
      · next hc => exact Or.inr (Or.inl rfl)
    · next heq => exact Or.inr (Or.inl rfl)
  · next h =>
    refine Or.inr (Or.inr ⟨?_, rfl⟩)
    by_cases h1 : r.content = []
    · exact Or.inl h1
    · right
      by_cases h2 : r.content = readErrSentinel
      · exact h2
      · exact absurd ⟨h1, h2⟩ h

/-- Skip branch of the conversion loop: blank or read-error content yields
the skipped row with no inference call. -/
theorem processRecord_skip (ai : PyStr → Option PyStr) (r : RecIn)
    (h : r.content = [] ∨ r.content = readErrSentinel) :
    processRecord ai r =
      ⟨⟨r.filename, r.content, noContentSentinel, pystr "No content available", .Skipped⟩, 0, 0⟩ := by
  have hneg : ¬ (r.content ≠ [] ∧ r.content ≠ readErrSentinel) := by
    rcases h with h | h <;> simp [h]
  unfold processRecord
  rw [if_neg hneg]

/-- Active branch of the conversion loop: non-blank, non-read-error content
always makes exactly one inference call and ends Converted or Failed. -/
theorem processRecord_active (ai : PyStr → Option PyStr) (r : RecIn)
    (h : r.content ≠ [] ∧ r.content ≠ readErrSentinel) :
    ((processRecord ai r).record.status = .Converted ∨ (processRecord ai r).record.status = .Failed)
    ∧ (processRecord ai r).calls = 1 := by
  rcases processRecord_branches ai r with ⟨code, _, _, _, heq⟩ | heq | ⟨hskip, heq⟩
  · rw [heq]; exact ⟨Or.inl rfl, rfl⟩
  · rw [heq]; exact ⟨Or.inr rfl, rfl⟩
  · rcases hskip with h1 | h2
    · exact absurd h1 h.1
    · exact absurd h2 h.2

/-- Claim C6: a record whose stored content is blank or the read-error
sentinel is skipped with the no-content sentinel and the summary
"No content available", with zero inference calls; over three records where
the second holds the read-error sentinel, the final statuses are
[Converted-or-Failed, Skipped, Converted-or-Failed] and the batch makes
only the calls of records one and three. -/
theorem batch_skip_behavior (ai : PyStr → Option PyStr) (r1 r2 r3 : RecIn)
    (h1 : r1.content ≠ [] ∧ r1.content ≠ readErrSentinel)
    (h2 : r2.content = readErrSentinel)
    (h3 : r3.content ≠ [] ∧ r3.content ≠ readErrSentinel) :
    (∀ r : RecIn, r.content = [] ∨ r.content = readErrSentinel →
       processRecord ai r =
         ⟨⟨r.filename, r.content, noContentSentinel, pystr "No content available", .Skipped⟩, 0, 0⟩)
    ∧ ((processRecord ai r1).record.status = .Converted ∨ (processRecord ai r1).record.status = .Failed)
    ∧ (processRecord ai r2).record.status = .Skipped
    ∧ (processRecord ai r2).record.converted = noContentSentinel
    ∧ (processRecord ai r2).record.comments = pystr "No content available"
    ∧ (processRecord ai r2).calls = 0
    ∧ ((processRecord ai r3).record.status = .Converted ∨ (processRecord ai r3).record.status = .Failed)
    ∧ (runBatch ai [r1, r2, r3]).recs.map RecOut.status
        = [(processRecord ai r1).record.status, .Skipped, (processRecord ai r3).record.status]
    ∧ (runBatch ai [r1, r2, r3]).calls
        = (processRecord ai r1).calls + (processRecord ai r3).calls := by
  have hskip2 := processRecord_skip ai r2 (Or.inr h2)
  have ha1 := processRecord_active ai r1 h1
  have ha3 := processRecord_active ai r3 h3
  refine ⟨fun r h => processRecord_skip ai r h, ha1.1, ?_, ?_, ?_, ?_, ha3.1, ?_, ?_⟩
  · rw [hskip2]
  · rw [hskip2]
  · rw [hskip2]
  · rw [hskip2]
  · simp [runBatch, hskip2]
  · simp [runBatch, hskip2]

/-- Witness for C6: a concrete three-record batch whose middle record holds
the read-error sentinel is skipped with zero inference calls. -/
theorem batch_skip_behavior_witness :
    (processRecord (fun _ => some (pystr "SELECT 1")) ⟨pystr "b.sql", readErrSentinel⟩).record.status
        = RecStatus.Skipped
    ∧ (processRecord (fun _ => some (pystr "SELECT 1")) ⟨pystr "b.sql", readErrSentinel⟩).calls = 0 :=
  have h := batch_skip_behavior (fun _ => some (pystr "SELECT 1"))
    ⟨pystr "a.sql", pystr "CREATE TABLE a (i INT)"⟩
    ⟨pystr "b.sql", readErrSentinel⟩
    ⟨pystr "c.sql", pystr "CREATE TABLE c (i INT)"⟩
    ⟨by decide, by decide⟩ rfl ⟨by decide, by decide⟩
  ⟨h.2.2.1, h.2.2.2.2.2.1⟩

/-- Converted-cell test of the amended C2 invariant: non-empty and distinct
from both sentinels. -/
def convertedOk (r : RecOut) : Bool :=
  r.converted != [] && r.converted != failSentinel && r.converted != noContentSentinel

theorem convertedOk_iff (r : RecOut) :
    convertedOk r = true ↔
      (r.converted ≠ [] ∧ r.converted ≠ failSentinel ∧ r.converted ≠ noContentSentinel) := by
  simp [convertedOk, and_assoc]

/-- Claim C2 (amended): provided inference outputs never equal the sentinel
strings, a record's status after a batch run is `Converted` iff its
converted content is non-empty and differs from both the failure sentinel
and the no-content sentinel; every status is terminal (`Converted`,
`Failed` or `Skipped`); and the reported converted count equals the number
of records whose converted content passes that test. -/
theorem batch_status_iff (ai : PyStr → Option PyStr) (rs : List RecIn)
    (H : ∀ c code, ai c = some code → stripL code ≠ [] →
         code ≠ failSentinel ∧ code ≠ noContentSentinel) :
    (∀ r ∈ (runBatch ai rs).recs,
       ((r.status = .Converted) ↔ convertedOk r = true)
       ∧ (r.status = .Converted ∨ r.status = .Failed ∨ r.status = .Skipped))
    ∧ (runBatch ai rs).convCount = (runBatch ai rs).recs.countP convertedOk := by
  induction rs with
  | nil => exact ⟨fun r h => absurd h (List.not_mem_nil r), rfl⟩
  | cons r rs ih =>
    obtain ⟨ihmem, ihcount⟩ := ih
    have hrecs : (runBatch ai (r :: rs)).recs
        = (processRecord ai r).record :: (runBatch ai rs).recs := rfl
    have hcount : (runBatch ai (r :: rs)).convCount
        = (processRecord ai r).inc + (runBatch ai rs).convCount := rfl
    rcases processRecord_branches ai r with ⟨code, hai, hne, hstrip, heq⟩ | heq | ⟨_, heq⟩
    · have hsent := H r.content code hai hstrip
      have hok : convertedOk (processRecord ai r).record = true := by
        rw [heq]
        exact (convertedOk_iff _).mpr ⟨hne, hsent.1, hsent.2⟩
      constructor
      · intro x hx
        rw [hrecs] at hx
        rcases List.mem_cons.mp hx with hx | hx
        · subst hx
          refine ⟨?_, ?_⟩
          · rw [heq] at hok ⊢
            simp [hok]
          · rw [heq]
            exact Or.inl rfl
        · exact ihmem x hx
      · rw [hcount, hrecs, ihcount, List.countP_cons]
        rw [heq] at hok
        rw [heq]
        simp [hok]
        omega
    · have hnotok : convertedOk (processRecord ai r).record = false := by
        rw [heq]
        simp [convertedOk]
      constructor
      · intro x hx
        rw [hrecs] at hx
        rcases List.mem_cons.mp hx with hx | hx
        · subst hx
          refine ⟨?_, ?_⟩
          · rw [heq] at hnotok ⊢
            simp [hnotok]
          · rw [heq]
            exact Or.inr (Or.inl rfl)
        · exact ihmem x hx
      · rw [hcount, hrecs, ihcount, List.countP_cons]
        rw [heq] at hnotok
        rw [heq]
        simp [hnotok]
    · have hnotok : convertedOk (processRecord ai r).record = false := by
        rw [heq]
        simp [convertedOk]
      constructor
      · intro x hx
        rw [hrecs] at hx
        rcases List.mem_cons.mp hx with hx | hx
        · subst hx
          refine ⟨?_, ?_⟩
          · rw [heq] at hnotok ⊢
            simp [hnotok]
          · rw [heq]
            exact Or.inr (Or.inr rfl)
        · exact ihmem x hx
      · rw [hcount, hrecs, ihcount, List.countP_cons]
        rw [heq] at hnotok
        rw [heq]
        simp [hnotok]

/-- Witness for C2: the amended invariant instantiated on a concrete batch
with one convertible and one blank record and a constant oracle. -/
theorem batch_status_iff_witness :
    (runBatch (fun _ => some (pystr "SELECT 1"))
        [⟨pystr "a.sql", pystr "CREATE TABLE a (i INT)"⟩, ⟨pystr "b.sql", []⟩]).convCount
      = (runBatch (fun _ => some (pystr "SELECT 1"))
          [⟨pystr "a.sql", pystr "CREATE TABLE a (i INT)"⟩, ⟨pystr "b.sql", []⟩]).recs.countP convertedOk :=
  (batch_status_iff (fun _ => some (pystr "SELECT 1"))
      [⟨pystr "a.sql", pystr "CREATE TABLE a (i INT)"⟩, ⟨pystr "b.sql", []⟩]
      (fun c code h _ => by
        injection h with h
        subst h
        exact ⟨by decide, by decide⟩)).2

set_option maxRecDepth 10000 in
/-- Counterexample to C2 as stated: a skipped record carries the no-content
sentinel, which is non-empty and differs from the failure sentinel, yet its
status is `Skipped`, not `Converted` — the claimed biconditional fails. -/
theorem batch_status_iff_counterexample :
    ((runBatch (fun _ => none) [⟨pystr "c.sql", []⟩]).recs.map
        (fun r => (r.status, r.converted)))
      = [(RecStatus.Skipped, noContentSentinel)]
    ∧ ¬ ((RecStatus.Skipped = RecStatus.Converted) ↔
          (noContentSentinel ≠ [] ∧ noContentSentinel ≠ failSentinel)) := by
  exact ⟨rfl, by decide⟩

theorem mem_ite_list {c : Prop} [Decidable c] {p : PyStr} {a b : List PyStr} :
    (p ∈ if c then a else b) ↔ (c ∧ p ∈ a) ∨ (¬ c ∧ p ∈ b) := by
  by_cases h : c <;> simp [h]

theorem pystr_eq_iff {a b : String} : pystr a = pystr b ↔ a = b := by
  constructor
  · intro h
    cases a
    cases b
    exact congrArg String.mk h
  · intro h; rw [h]

/-- A phrase other than the generic fallback is reported iff it is in the
change list (the fallback only appears when the list is empty,
`src/app.py:538`-`539`). -/
theorem mem_reported_iff_mem_changes {o c p : PyStr}
    (h : p ≠ pystr "Converted to Databricks SQL format") :
    p ∈ reportedChanges o c ↔ p ∈ changesList o c := by
  unfold reportedChanges
  by_cases he : (changesList o c).isEmpty
  · rw [if_pos he]
    rw [List.isEmpty_iff.mp he]
    simp [h]
  · rw [if_neg he]

/-- Claim C10: the DISTKEY/SORTKEY/DISTSTYLE/CLUSTERED removal phrases are
reported iff the keyword occurs case-insensitively in the original text,
for every converted text — unlike the constraint-removal rules, absence
from the converted text is not required (`src/app.py:514`-`525`). -/
theorem summarizer_removal_phrases_presence_only (o c : PyStr) :
    ((pystr "Removed DISTKEY (Redshift-specific)") ∈ reportedChanges o c
        ↔ hasSub (upperL o) (pystr "DISTKEY") = true)
    ∧ ((pystr "Removed SORTKEY (Redshift-specific)") ∈ reportedChanges o c
        ↔ hasSub (upperL o) (pystr "SORTKEY") = true)
    ∧ ((pystr "Removed DISTSTYLE (Redshift-specific)") ∈ reportedChanges o c
        ↔ hasSub (upperL o) (pystr "DISTSTYLE") = true)
    ∧ ((pystr "Removed CLUSTERED/NONCLUSTERED (SQL Server-specific)") ∈ reportedChanges o c
        ↔ (hasSub (upperL o) (pystr "CLUSTERED") || hasSub (upperL o) (pystr "NONCLUSTERED")) = true) := by
  refine ⟨?_, ?_, ?_, ?_⟩ <;>
  · rw [mem_reported_iff_mem_changes (by decide)]
    unfold changesList
    simp only [List.mem_append, mem_ite_list, List.mem_singleton, List.not_mem_nil, pystr_eq_iff,
      String.reduceEq, and_false, false_and, and_true, true_and, or_false, false_or]

/-- Modelled from the spec (§4.2): chat-completion shape whose
`choices[0].message.content` is a plain string `s`. -/
def shapeChatContentStr (b : JsonVal) (s : PyStr) : Prop :=
  ∃ kvs fo rest mo, b = .jobj kvs
    ∧ lookupKey kvs (pystr "choices") = some (.jarr (.jobj fo :: rest))
    ∧ lookupKey fo (pystr "message") = some (.jobj mo)
    ∧ lookupKey mo (pystr "content") = some (.jstr s)

/-- Modelled from the spec (§4.2): hand-computed oracle flattening a list of
content segments — each segment is a plain string or a typed segment whose
`text` field is a non-empty string; the result is their concatenation. -/
def flattenSegs : List JsonVal → Option PyStr
  | [] => some []
  | .jstr t :: rest => (flattenSegs rest).map (fun r => t ++ r)
  | .jobj o :: rest =>
    match lookupKey o (pystr "text") with
    | some (.jstr t) => if t.isEmpty then none else (flattenSegs rest).map (fun r => t ++ r)
    | _ => none
  | _ :: _ => none

/-- Modelled from the spec (§4.2): chat-completion shape whose
`choices[0].message.content` is a list of typed segments flattening to
`s`. -/
def shapeChatContentList (b : JsonVal) (s : PyStr) : Prop :=
  ∃ kvs fo rest mo segs, b = .jobj kvs
    ∧ lookupKey kvs (pystr "choices") = some (.jarr (.jobj fo :: rest))
    ∧ lookupKey fo (pystr "message") = some (.jobj mo)
    ∧ lookupKey mo (pystr "content") = some (.jarr segs)
    ∧ flattenSegs segs = some s

/-- Modelled from the spec (§4.2): completion shape with `choices[0].text`
a string `s` (and no `message` field). -/
def shapeChoiceText (b : JsonVal) (s : PyStr) : Prop :=
  ∃ kvs fo rest, b = .jobj kvs
    ∧ lookupKey kvs (pystr "choices") = some (.jarr (.jobj fo :: rest))
    ∧ lookupKey fo (pystr "message") = none
    ∧ lookupKey fo (pystr "text") = some (.jstr s)

/-- Modelled from the spec (§4.2): bare `text` field shape. -/
def shapeBareText (b : JsonVal) (s : PyStr) : Prop :=
  ∃ kvs, b = .jobj kvs
    ∧ lookupKey kvs (pystr "choices") = none
    ∧ lookupKey kvs (pystr "text") = some (.jstr s)

/-- Modelled from the spec (§4.2): bare `response` field shape. -/
def shapeBareResponse (b : JsonVal) (s : PyStr) : Prop :=
  ∃ kvs, b = .jobj kvs
    ∧ lookupKey kvs (pystr "choices") = none
    ∧ lookupKey kvs (pystr "text") = none
    ∧ lookupKey kvs (pystr "response") = some (.jstr s)

/-- Modelled from the spec (§4.2): hand-computed oracle for `predictions[0]`
as a plain string, or as an object whose `text` field is a non-empty
string. -/
def predOracle : JsonVal → Option PyStr
  | .jstr s => some s
  | .jobj po =>
    match lookupKey po (pystr "text") with
    | some (.jstr t) => if t.isEmpty then none else some t
    | _ => none
  | _ => none

/-- Modelled from the spec (§4.2): `predictions[0]` shape. -/
def shapePredictions (b : JsonVal) (s : PyStr) : Prop :=
  ∃ kvs p rest, b = .jobj kvs
    ∧ lookupKey kvs (pystr "choices") = none
    ∧ lookupKey kvs (pystr "text") = none
    ∧ lookupKey kvs (pystr "response") = none
    ∧ lookupKey kvs (pystr "predictions") = some (.jarr (p :: rest))
    ∧ predOracle p = some s

/-- No top-level shape marker is present: no truthy `choices`, no `text`,
no `response`, no truthy `predictions` (amended fallback condition). -/
def noTopMarkers (b : JsonVal) : Bool :=
  match b with
  | .jobj kvs =>
      !(hasTruthyKey kvs (pystr "choices")) && !(hasKey kvs (pystr "text"))
        && !(hasKey kvs (pystr "response")) && !(hasTruthyKey kvs (pystr "predictions"))
  | _ => true

theorem flattenSegs_join {segs : List JsonVal} {s : PyStr} (h : flattenSegs segs = some s) :
    joinStrParts (segs.map segPart) = .ok s := by
  induction segs generalizing s with
  | nil =>
    simp [flattenSegs] at h
    subst h
    rfl
  | cons seg rest ih =>
    cases seg with
    | jstr t =>
      simp only [flattenSegs] at h
      obtain ⟨r, hr, hs⟩ := Option.map_eq_some'.mp h
      subst hs
      simp [List.map_cons, segPart, joinStrParts, ih hr, Except.map]
    | jobj o =>
      simp only [flattenSegs] at h
      split at h
      · next t hlk =>
        rcases ht : t.isEmpty with _ | _
        · rw [if_neg (by rw [ht]; exact Bool.false_ne_true)] at h
          obtain ⟨r, hr, hs⟩ := Option.map_eq_some'.mp h
          subst hs
          have hseg : segPart (.jobj o) = .jstr t := by
            simp [segPart, hlk, truthy, ht]
          simp [List.map_cons, hseg, joinStrParts, ih hr, Except.map]
        · rw [if_pos ht] at h; cases h
      · next hlk => cases h
    | jnum n => simp [flattenSegs] at h
    | jbool bb => simp [flattenSegs] at h
    | jnull => simp [flattenSegs] at h
    | jarr xs => simp [flattenSegs] at h

theorem normalize_shapeChatContentStr {b : JsonVal} {s : PyStr}
    (h : shapeChatContentStr b s) : normalizeContent b = s := by
  obtain ⟨kvs, fo, rest, mo, hb, h1, h2, h3⟩ := h
  subst hb
  have hk : hasTruthyKey kvs (pystr "choices") = true := by
    simp [hasTruthyKey, h1, truthy]
  cases s with
  | nil =>
    simp [normalizeContent, normalizeCore, hk, h1, h2, h3, choicesBranch, pyIndex0, truthy]
  | cons a t =>
    simp [normalizeContent, normalizeCore, hk, h1, h2, h3, choicesBranch, pyIndex0, truthy]

theorem normalize_shapeChatContentList {b : JsonVal} {s : PyStr}
    (h : shapeChatContentList b s) : normalizeContent b = s := by
  obtain ⟨kvs, fo, rest, mo, segs, hb, h1, h2, h3, h4⟩ := h
  subst hb
  have hk : hasTruthyKey kvs (pystr "choices") = true := by
    simp [hasTruthyKey, h1, truthy]
  have hjoin := flattenSegs_join h4
  simp [normalizeContent, normalizeCore, hk, h1, h2, h3, choicesBranch, pyIndex0, hjoin, Except.map]

theorem normalize_shapeChoiceText {b : JsonVal} {s : PyStr}
    (h : shapeChoiceText b s) : normalizeContent b = s := by
  obtain ⟨kvs, fo, rest, hb, h1, h2, h3⟩ := h
  subst hb
  have hk : hasTruthyKey kvs (pystr "choices") = true := by
    simp [hasTruthyKey, h1, truthy]
  have hkt : hasKey fo (pystr "text") = true := by
    simp [hasKey, h3]
  simp [normalizeContent, normalizeCore, hk, h1, h2, h3, hkt, choicesBranch, pyIndex0]

theorem normalize_shapeBareText {b : JsonVal} {s : PyStr}
    (h : shapeBareText b s) : normalizeContent b = s := by
  obtain ⟨kvs, hb, h1, h2⟩ := h
  subst hb
  simp [normalizeContent, normalizeCore, hasTruthyKey, hasKey, h1, h2]

theorem normalize_shapeBareResponse {b : JsonVal} {s : PyStr}
    (h : shapeBareResponse b s) : normalizeContent b = s := by
  obtain ⟨kvs, hb, h1, h2, h3⟩ := h
  subst hb
  simp [normalizeContent, normalizeCore, hasTruthyKey, hasKey, h1, h2, h3]

theorem normalize_shapePredictions {b : JsonVal} {s : PyStr}
    (h : shapePredictions b s) : normalizeContent b = s := by
  obtain ⟨kvs, p, rest, hb, h1, h2, h3, h4, h5⟩ := h
  subst hb
  have hk : hasTruthyKey kvs (pystr "predictions") = true := by
    simp [hasTruthyKey, h4, truthy]
  cases p with
  | jstr t =>
    simp only [predOracle, Option.some.injEq] at h5
    subst h5
    simp [normalizeContent, normalizeCore, hasTruthyKey, hasKey, h1, h2, h3, h4, hk,
      predictionsBranch, pyIndex0, pyStrTop, truthy]
  | jobj po =>
    simp only [predOracle] at h5
    split at h5
    · next t hlk =>
      rcases ht : t.isEmpty with _ | _
      · rw [if_neg (by rw [ht]; exact Bool.false_ne_true)] at h5
        have hst : some t = some s := h5
        have hts : t = s := by injection hst
        subst hts
        simp [normalizeContent, normalizeCore, hasTruthyKey, hasKey, h1, h2, h3, h4, hk,
          predictionsBranch, pyIndex0, hlk, truthy, ht]
      · rw [if_pos ht] at h5; cases h5
    · next hlk => cases h5
  | jnum n => cases h5
  | jbool bb => cases h5
  | jnull => cases h5
  | jarr xs => cases h5

theorem normalize_noTopMarkers {b : JsonVal} (h : noTopMarkers b = true) :
    normalizeContent b = pyStrTop b := by
  cases b with
  | jobj kvs =>
    simp only [noTopMarkers, Bool.and_eq_true, Bool.not_eq_true'] at h
    obtain ⟨⟨⟨hc, ht⟩, hr⟩, hp⟩ := h
    simp [normalizeContent, normalizeCore, hc, ht, hr, hp]
  | jstr s => rfl
  | jnum n => rfl
  | jbool bb => rfl
  | jnull => rfl
  | jarr xs => rfl

/-- Claim C3 (amended): for each of the five documented response shapes the
normalization of `ai_query` extracts exactly the hand-computed oracle
string, and when none of the top-level markers (truthy `choices`, `text`,
`response`, truthy `predictions`) is present it returns the stringified
dump of the whole body.  (A body with a marker present but unexpected inner
structure may instead yield the inner element's stringification or the
empty string — see the counterexample.) -/
theorem ai_query_shape_normalization (b : JsonVal) :
    (∀ s, shapeChatContentStr b s → normalizeContent b = s)
    ∧ (∀ s, shapeChatContentList b s → normalizeContent b = s)
    ∧ (∀ s, shapeChoiceText b s → normalizeContent b = s)
    ∧ (∀ s, shapeBareText b s → normalizeContent b = s)
    ∧ (∀ s, shapeBareResponse b s → normalizeContent b = s)
    ∧ (∀ s, shapePredictions b s → normalizeContent b = s)
    ∧ (noTopMarkers b = true → normalizeContent b = pyStrTop b) :=
  ⟨fun _ h => normalize_shapeChatContentStr h,
   fun _ h => normalize_shapeChatContentList h,
   fun _ h => normalize_shapeChoiceText h,
   fun _ h => normalize_shapeBareText h,
   fun _ h => normalize_shapeBareResponse h,
   fun _ h => normalize_shapePredictions h,
   fun h => normalize_noTopMarkers h⟩

/-- Witness for C3: a chat-completion body with plain string content
normalizes to that string. -/
theorem ai_query_shape_normalization_witness :
    normalizeContent (.jobj [(pystr "choices",
        .jarr [.jobj [(pystr "message", .jobj [(pystr "content", .jstr (pystr "hello"))])]])])
      = pystr "hello" :=
  (ai_query_shape_normalization _).1 (pystr "hello")
    ⟨_, _, _, _, rfl, rfl, rfl, rfl⟩

/-- Observer distinguishing a `choices` value whose head is an object. -/
def obsChoicesHeadObj : Option JsonVal → Bool
  | some (.jarr (.jobj _ :: _)) => true
  | _ => false

set_option maxRecDepth 10000 in
/-- Counterexample to C3 as stated: the body whose `choices` is the list
`[42]` matches none of the five documented shapes, yet the client returns
the empty string (the initialized `content`), not the stringified dump of
the whole body (`src/app.py:105`, `127`-`128`). -/
theorem ai_query_shape_fallback_counterexample :
    (∀ s, ¬ shapeChatContentStr (.jobj [(pystr "choices", .jarr [.jnum 42])]) s)
    ∧ (∀ s, ¬ shapeChatContentList (.jobj [(pystr "choices", .jarr [.jnum 42])]) s)
    ∧ (∀ s, ¬ shapeChoiceText (.jobj [(pystr "choices", .jarr [.jnum 42])]) s)
    ∧ (∀ s, ¬ shapeBareText (.jobj [(pystr "choices", .jarr [.jnum 42])]) s)
    ∧ (∀ s, ¬ shapeBareResponse (.jobj [(pystr "choices", .jarr [.jnum 42])]) s)
    ∧ (∀ s, ¬ shapePredictions (.jobj [(pystr "choices", .jarr [.jnum 42])]) s)
    ∧ normalizeContent (.jobj [(pystr "choices", .jarr [.jnum 42])]) = []
    ∧ normalizeContent (.jobj [(pystr "choices", .jarr [.jnum 42])])
        ≠ pyStrTop (.jobj [(pystr "choices", .jarr [.jnum 42])]) := by
  refine ⟨?_, ?_, ?_, ?_, ?_, ?_, rfl, by decide⟩
  · rintro s ⟨kvs, fo, rest, mo, hb, h1, _, _⟩
    injection hb with hkvs
    subst hkvs
    have hobs : obsChoicesHeadObj
        (lookupKey [(pystr "choices", JsonVal.jarr [JsonVal.jnum 42])] (pystr "choices")) = false := rfl
    rw [h1] at hobs
    exact Bool.noConfusion hobs
  · rintro s ⟨kvs, fo, rest, mo, segs, hb, h1, _, _, _⟩
    injection hb with hkvs
    subst hkvs
    have hobs : obsChoicesHeadObj
        (lookupKey [(pystr "choices", JsonVal.jarr [JsonVal.jnum 42])] (pystr "choices")) = false := rfl
    rw [h1] at hobs
    exact Bool.noConfusion hobs
  · rintro s ⟨kvs, fo, rest, hb, h1, _, _⟩
    injection hb with hkvs
    subst hkvs
    have hobs : obsChoicesHeadObj
        (lookupKey [(pystr "choices", JsonVal.jarr [JsonVal.jnum 42])] (pystr "choices")) = false := rfl
    rw [h1] at hobs
    exact Bool.noConfusion hobs
  · rintro s ⟨kvs, hb, h1, _⟩
    injection hb with hkvs
    subst hkvs
    have hobs : (lookupKey [(pystr "choices", JsonVal.jarr [JsonVal.jnum 42])] (pystr "choices")).isSome
        = true := rfl
    rw [h1] at hobs
    exact Bool.noConfusion hobs
  · rintro s ⟨kvs, hb, h1, _, _⟩
    injection hb with hkvs
    subst hkvs
    have hobs : (lookupKey [(pystr "choices", JsonVal.jarr [JsonVal.jnum 42])] (pystr "choices")).isSome
        = true := rfl
    rw [h1] at hobs
    exact Bool.noConfusion hobs
  · rintro s ⟨kvs, p, rest, hb, h1, _, _, _, _⟩
    injection hb with hkvs
    subst hkvs
    have hobs : (lookupKey [(pystr "choices", JsonVal.jarr [JsonVal.jnum 42])] (pystr "choices")).isSome
        = true := rfl
    rw [h1] at hobs
    exact Bool.noConfusion hobs

theorem dropWhile_cons_neg {p : Char → Bool} {a : Char} {l : PyStr} (h : p a = false) :
    List.dropWhile p (a :: l) = a :: l := by
  rw [List.dropWhile_cons, if_neg (by simp [h])]

theorem head_false_of_dropWhile_eq_self {p : Char → Bool} {a : Char} {l : PyStr}
    (h : List.dropWhile p (a :: l) = a :: l) : p a = false := by
  by_cases hp : p a = true
  · rw [List.dropWhile_cons, if_pos hp] at h
    have hlen := congrArg List.length h
    have hle : (List.dropWhile p l).length ≤ l.length := (List.dropWhile_sublist p).length_le
    simp at hlen
    omega
  · exact Bool.eq_false_iff.mpr hp

theorem stripL_id_of {X : PyStr} (hhead : List.dropWhile isWs X = X)
    (htail : List.dropWhile isWs X.reverse = X.reverse) : stripL X = X := by
  unfold stripL dropLeadWs dropTrailWs
  rw [hhead, htail, List.reverse_reverse]

theorem stripL_cons_ws {c : Char} {X : PyStr} (h : isWs c = true) :
    stripL (c :: X) = stripL X := by
  unfold stripL dropLeadWs
  rw [List.dropWhile_cons, if_pos h]

/-- A string not starting with a fence cannot start one after appending a
newline-led tail. -/
theorem backtick3_prefix_append_nl {t x : PyStr}
    (ht3 : (pystr "```").isPrefixOf t = false) :
    (pystr "```").isPrefixOf (t ++ '\n' :: x) = false := by
  match t, ht3 with
  | [], _ => simp [List.isPrefixOf]
  | [a], _ => simp [List.isPrefixOf]
  | [a, b], _ => simp [List.isPrefixOf]
  | a :: b :: c :: t', h => 
    simp [List.isPrefixOf] at h ⊢
    intro ha hb
    exact h ha hb

theorem backtick6_prefix_false {X : PyStr} (h : (pystr "```").isPrefixOf X = false) :
    (pystr "```sql").isPrefixOf X = false := by
  by_cases h6 : (pystr "```sql").isPrefixOf X = true
  · have hp := List.isPrefixOf_iff_prefix.mp h6
    have h3 : pystr "```" <+: X := List.IsPrefix.trans ⟨pystr "sql", rfl⟩ hp
    exact absurd (List.isPrefixOf_iff_prefix.mpr h3) (by simp [h])
  · exact Bool.eq_false_iff.mpr h6

theorem backtick3_suffix_cons_nl {t : PyStr}
    (ht4 : (pystr "```").isSuffixOf t = false) :
    (pystr "```").isSuffixOf ('\n' :: t) = false := by
  by_cases h : (pystr "```").isSuffixOf ('\n' :: t) = true
  · have hs := List.isSuffixOf_iff_suffix.mp h
    rcases List.suffix_cons_iff.mp hs with heq | hsuf
    · have : '`' = '\n' := by injection heq
      exact absurd this (by decide)
    · exact absurd (List.isSuffixOf_iff_suffix.mpr hsuf) (by simp [ht4])
  · exact Bool.eq_false_iff.mpr h

theorem ne_true_of_false {b : Bool} (h : b = false) : ¬ b = true := by simp [h]

/-- Claim C4: for all four combinations of presence/absence of a leading
fence opener (```` ``` ```` optionally followed by the `sql` tag) and a
trailing closing ```` ``` ````, the post-processing strips whichever fences
are present and returns the inner text trimmed, for every inner text that
is already trimmed and not itself fence-delimited. -/
theorem cleanFences_strips_fences (t : PyStr)
    (ht1 : List.dropWhile isWs t = t)
    (ht2 : List.dropWhile isWs t.reverse = t.reverse)
    (ht3 : (pystr "```").isPrefixOf t = false)
    (ht4 : (pystr "```").isSuffixOf t = false) :
    cleanFences t = t
    ∧ cleanFences (pystr "```\n" ++ t) = t
    ∧ cleanFences (pystr "```sql\n" ++ t) = t
    ∧ cleanFences (t ++ pystr "\n```") = t
    ∧ cleanFences (pystr "```\n" ++ t ++ pystr "\n```") = t
    ∧ cleanFences (pystr "```sql\n" ++ t ++ pystr "\n```") = t := by
  have hp3 : pystr "```" = ['`', '`', '`'] := rfl
  have hp6 : pystr "```sql" = ['`', '`', '`', 's', 'q', 'l'] := rfl
  have hnl : pystr "\n```" = '\n' :: pystr "```" := rfl
  cases t with
  | nil => exact ⟨by decide, by decide, by decide, by decide, by decide, by decide⟩
  | cons a t' =>
    have ha : isWs a = false := head_false_of_dropWhile_eq_self ht1
    cases hrev : (a :: t').reverse with
    | nil =>
      have := congrArg List.length hrev
      simp at this
    | cons d r' =>
      have hd : isWs d = false := by
        rw [hrev] at ht2
        exact head_false_of_dropWhile_eq_self ht2
      rw [hrev] at ht2
      have hstrip : stripL (a :: t') = a :: t' := by
        unfold stripL dropLeadWs dropTrailWs
        rw [ht1, hrev, ht2, ← hrev, List.reverse_reverse]
      have hfin1 : stripL ('\n' :: (a :: t')) = a :: t' :=
        (stripL_cons_ws (by decide)).trans hstrip
      have hfin2 : stripL ((a :: t') ++ ['\n']) = a :: t' := by
        unfold stripL dropLeadWs dropTrailWs
        rw [show (a :: t') ++ ['\n'] = a :: (t' ++ ['\n']) from rfl, dropWhile_cons_neg ha]
        rw [show (a :: (t' ++ ['\n'])).reverse = '\n' :: (a :: t').reverse from by simp]
        rw [List.dropWhile_cons, if_pos (by decide), hrev, ht2, ← hrev, List.reverse_reverse]
      have hfin3 : stripL ('\n' :: ((a :: t') ++ ['\n'])) = a :: t' :=
        (stripL_cons_ws (by decide)).trans hfin2
      -- equation 1: no fences
      have heq1 : cleanFences (a :: t') = a :: t' := by
        simp only [cleanFences]
        rw [hstrip, if_neg (ne_true_of_false (backtick6_prefix_false ht3)),
          if_neg (ne_true_of_false ht3), if_neg (ne_true_of_false ht4)]
        exact hstrip
      -- equation 2: bare opener only
      have heq2 : cleanFences (pystr "```\n" ++ (a :: t')) = a :: t' := by
        have htailX : List.dropWhile isWs ('`' :: '`' :: '`' :: '\n' :: (a :: t')).reverse
            = ('`' :: '`' :: '`' :: '\n' :: (a :: t')).reverse := by
          rw [show ('`' :: '`' :: '`' :: '\n' :: (a :: t')).reverse
              = (a :: t').reverse ++ ['\n', '`', '`', '`'] from by simp, hrev, List.cons_append]
          exact dropWhile_cons_neg hd
        have hstripX : stripL ('`' :: '`' :: '`' :: '\n' :: (a :: t'))
            = '`' :: '`' :: '`' :: '\n' :: (a :: t') :=
          stripL_id_of (dropWhile_cons_neg (by decide)) htailX
        have hc6 : (pystr "```sql").isPrefixOf ('`' :: '`' :: '`' :: '\n' :: (a :: t')) = false := by
          simp [hp6, List.isPrefixOf]
        have hc3 : (pystr "```").isPrefixOf ('`' :: '`' :: '`' :: '\n' :: (a :: t')) = true := by
          simp [hp3, List.isPrefixOf]
        have hclose : (pystr "```").isSuffixOf ('\n' :: (a :: t')) = false :=
          backtick3_suffix_cons_nl ht4
        show cleanFences ('`' :: '`' :: '`' :: '\n' :: (a :: t')) = a :: t'
        simp only [cleanFences]
        rw [hstripX, if_neg (ne_true_of_false hc6), if_pos hc3,
          show List.drop 3 ('`' :: '`' :: '`' :: '\n' :: (a :: t')) = '\n' :: (a :: t') from rfl,
          if_neg (ne_true_of_false hclose)]
        exact hfin1
      -- equation 3: sql opener only
      have heq3 : cleanFences (pystr "```sql\n" ++ (a :: t')) = a :: t' := by
        have htailX : List.dropWhile isWs
              ('`' :: '`' :: '`' :: 's' :: 'q' :: 'l' :: '\n' :: (a :: t')).reverse
            = ('`' :: '`' :: '`' :: 's' :: 'q' :: 'l' :: '\n' :: (a :: t')).reverse := by
          rw [show ('`' :: '`' :: '`' :: 's' :: 'q' :: 'l' :: '\n' :: (a :: t')).reverse
              = (a :: t').reverse ++ ['\n', 'l', 'q', 's', '`', '`', '`'] from by simp, hrev,
            List.cons_append]
          exact dropWhile_cons_neg hd
        have hstripX : stripL ('`' :: '`' :: '`' :: 's' :: 'q' :: 'l' :: '\n' :: (a :: t'))
            = '`' :: '`' :: '`' :: 's' :: 'q' :: 'l' :: '\n' :: (a :: t') :=
          stripL_id_of (dropWhile_cons_neg (by decide)) htailX
        have hc6 : (pystr "```sql").isPrefixOf
            ('`' :: '`' :: '`' :: 's' :: 'q' :: 'l' :: '\n' :: (a :: t')) = true := by
          simp [hp6, List.isPrefixOf]
        have hc3after : (pystr "```").isPrefixOf ('\n' :: (a :: t')) = false := by
          simp [hp3, List.isPrefixOf]
        have hclose : (pystr "```").isSuffixOf ('\n' :: (a :: t')) = false :=
          backtick3_suffix_cons_nl ht4
        show cleanFences ('`' :: '`' :: '`' :: 's' :: 'q' :: 'l' :: '\n' :: (a :: t')) = a :: t'
        simp only [cleanFences]
        rw [hstripX, if_pos hc6,
          show List.drop 6 ('`' :: '`' :: '`' :: 's' :: 'q' :: 'l' :: '\n' :: (a :: t'))
            = '\n' :: (a :: t') from rfl,
          if_neg (ne_true_of_false hc3after), if_neg (ne_true_of_false hclose)]
        exact hfin1
      -- equation 4: closer only
      have heq4 : cleanFences ((a :: t') ++ pystr "\n```") = a :: t' := by
        have hsplit : (a :: t') ++ pystr "\n```" = ((a :: t') ++ ['\n']) ++ pystr "```" := by
          rw [hnl]
          simp
        have htailX : List.dropWhile isWs ((a :: t') ++ pystr "\n```").reverse
            = ((a :: t') ++ pystr "\n```").reverse := by
          rw [show ((a :: t') ++ pystr "\n```").reverse
              = '`' :: '`' :: '`' :: '\n' :: (a :: t').reverse from by rw [hnl, hp3]; simp]
          exact dropWhile_cons_neg (by decide)
        have hheadX : List.dropWhile isWs ((a :: t') ++ pystr "\n```")
            = (a :: t') ++ pystr "\n```" := by
          rw [show (a :: t') ++ pystr "\n```" = a :: (t' ++ pystr "\n```") from rfl]
          exact dropWhile_cons_neg ha
        have hstripX : stripL ((a :: t') ++ pystr "\n```") = (a :: t') ++ pystr "\n```" :=
          stripL_id_of hheadX htailX
        have hpre3 : (pystr "```").isPrefixOf ((a :: t') ++ pystr "\n```") = false := by
          rw [hnl]
          exact backtick3_prefix_append_nl ht3
        have hc6 : (pystr "```sql").isPrefixOf ((a :: t') ++ pystr "\n```") = false :=
          backtick6_prefix_false hpre3
        have hclose : (pystr "```").isSuffixOf ((a :: t') ++ pystr "\n```") = true := by
          rw [hsplit]
          exact List.isSuffixOf_iff_suffix.mpr (List.suffix_append _ _)
        have htake : List.take (((a :: t') ++ pystr "\n```").length - 3)
              ((a :: t') ++ pystr "\n```")
            = (a :: t') ++ ['\n'] := by
          rw [hsplit]
          have hlen : ((((a :: t') ++ ['\n']) ++ pystr "```")).length - 3
              = ((a :: t') ++ ['\n']).length := by
            rw [hp3]
            simp
          rw [hlen, List.take_left]
        simp only [cleanFences]
        rw [hstripX, if_neg (ne_true_of_false hc6), if_neg (ne_true_of_false hpre3),
          if_pos hclose, htake]
        exact hfin2
      -- equation 5: bare opener and closer
      have heq5 : cleanFences (pystr "```\n" ++ (a :: t') ++ pystr "\n```") = a :: t' := by
        have hsplit : '\n' :: ((a :: t') ++ pystr "\n```")
            = (('\n' :: (a :: t')) ++ ['\n']) ++ pystr "```" := by
          rw [hnl]
          simp
        have htailX : List.dropWhile isWs
              ('`' :: '`' :: '`' :: '\n' :: ((a :: t') ++ pystr "\n```")).reverse
            = ('`' :: '`' :: '`' :: '\n' :: ((a :: t') ++ pystr "\n```")).reverse := by
          rw [show ('`' :: '`' :: '`' :: '\n' :: ((a :: t') ++ pystr "\n```")).reverse
              = '`' :: ('`' :: '`' :: '\n' :: ((a :: t').reverse ++ ['\n', '`', '`', '`']))
              from by rw [hnl, hp3]; simp]
          exact dropWhile_cons_neg (by decide)
        have hstripX : stripL ('`' :: '`' :: '`' :: '\n' :: ((a :: t') ++ pystr "\n```"))
            = '`' :: '`' :: '`' :: '\n' :: ((a :: t') ++ pystr "\n```") :=
          stripL_id_of (dropWhile_cons_neg (by decide)) htailX
        have hc6 : (pystr "```sql").isPrefixOf
            ('`' :: '`' :: '`' :: '\n' :: ((a :: t') ++ pystr "\n```")) = false := by
          simp [hp6, List.isPrefixOf]
        have hc3 : (pystr "```").isPrefixOf
            ('`' :: '`' :: '`' :: '\n' :: ((a :: t') ++ pystr "\n```")) = true := by
          simp [hp3, List.isPrefixOf]
        have hclose : (pystr "```").isSuffixOf ('\n' :: ((a :: t') ++ pystr "\n```")) = true := by
          rw [hsplit]
          exact List.isSuffixOf_iff_suffix.mpr (List.suffix_append _ _)
        have htake : List.take (('\n' :: ((a :: t') ++ pystr "\n```")).length - 3)
              ('\n' :: ((a :: t') ++ pystr "\n```"))
            = '\n' :: ((a :: t') ++ ['\n']) := by
          rw [hsplit]
          have hlen : (((('\n' :: (a :: t')) ++ ['\n']) ++ pystr "```")).length - 3
              = (('\n' :: (a :: t')) ++ ['\n']).length := by
            rw [hp3]
            simp
          rw [hlen, List.take_left]
          simp
        show cleanFences ('`' :: '`' :: '`' :: '\n' :: ((a :: t') ++ pystr "\n```")) = a :: t'
        simp only [cleanFences]
        rw [hstripX, if_neg (ne_true_of_false hc6), if_pos hc3,
          show List.drop 3 ('`' :: '`' :: '`' :: '\n' :: ((a :: t') ++ pystr "\n```"))
            = '\n' :: ((a :: t') ++ pystr "\n```") from rfl,
          if_pos hclose, htake]
        exact hfin3
      -- equation 6: sql opener and closer
      have heq6 : cleanFences (pystr "```sql\n" ++ (a :: t') ++ pystr "\n```") = a :: t' := by
        have hsplit : '\n' :: ((a :: t') ++ pystr "\n```")
            = (('\n' :: (a :: t')) ++ ['\n']) ++ pystr "```" := by
          rw [hnl]
          simp
        have htailX : List.dropWhile isWs
              ('`' :: '`' :: '`' :: 's' :: 'q' :: 'l' :: '\n' :: ((a :: t') ++ pystr "\n```")).reverse
            = ('`' :: '`' :: '`' :: 's' :: 'q' :: 'l' :: '\n' :: ((a :: t') ++ pystr "\n```")).reverse := by
          rw [show ('`' :: '`' :: '`' :: 's' :: 'q' :: 'l' :: '\n'
                :: ((a :: t') ++ pystr "\n```")).reverse
              = '`' :: ('`' :: '`' :: '\n' :: ((a :: t').reverse
                  ++ ['\n', 'l', 'q', 's', '`', '`', '`']))
              from by rw [hnl, hp3]; simp]
          exact dropWhile_cons_neg (by decide)
        have hstripX : stripL ('`' :: '`' :: '`' :: 's' :: 'q' :: 'l' :: '\n'
              :: ((a :: t') ++ pystr "\n```"))
            = '`' :: '`' :: '`' :: 's' :: 'q' :: 'l' :: '\n' :: ((a :: t') ++ pystr "\n```") :=
          stripL_id_of (dropWhile_cons_neg (by decide)) htailX
        have hc6 : (pystr "```sql").isPrefixOf
            ('`' :: '`' :: '`' :: 's' :: 'q' :: 'l' :: '\n' :: ((a :: t') ++ pystr "\n```"))
            = true := by
          simp [hp6, List.isPrefixOf]
        have hc3after : (pystr "```").isPrefixOf ('\n' :: ((a :: t') ++ pystr "\n```")) = false := by
          simp [hp3, List.isPrefixOf]
        have hclose : (pystr "```").isSuffixOf ('\n' :: ((a :: t') ++ pystr "\n```")) = true := by
          rw [hsplit]
          exact List.isSuffixOf_iff_suffix.mpr (List.suffix_append _ _)
        have htake : List.take (('\n' :: ((a :: t') ++ pystr "\n```")).length - 3)
              ('\n' :: ((a :: t') ++ pystr "\n```"))
            = '\n' :: ((a :: t') ++ ['\n']) := by
          rw [hsplit]
          have hlen : (((('\n' :: (a :: t')) ++ ['\n']) ++ pystr "```")).length - 3
              = (('\n' :: (a :: t')) ++ ['\n']).length := by
            rw [hp3]
            simp
          rw [hlen, List.take_left]
          simp
        show cleanFences ('`' :: '`' :: '`' :: 's' :: 'q' :: 'l' :: '\n'
            :: ((a :: t') ++ pystr "\n```")) = a :: t'
        simp only [cleanFences]
        rw [hstripX, if_pos hc6,
          show List.drop 6 ('`' :: '`' :: '`' :: 's' :: 'q' :: 'l' :: '\n'
              :: ((a :: t') ++ pystr "\n```"))
            = '\n' :: ((a :: t') ++ pystr "\n```") from rfl,
          if_neg (ne_true_of_false hc3after), if_pos hclose, htake]
        exact hfin3
      exact ⟨heq1, heq2, heq3, heq4, heq5, heq6⟩

/-- Witness for C4: a concrete fenced response is stripped to the inner
text. -/
theorem cleanFences_strips_fences_witness :
    cleanFences (pystr "```sql\n" ++ pystr "SELECT 1" ++ pystr "\n```") = pystr "SELECT 1" :=
  (cleanFences_strips_fences (pystr "SELECT 1") (by decide) (by decide) (by decide)
    (by decide)).2.2.2.2.2
